import Mathlib

/-!
Verification of the TrailSync security core (Sanitizer, SecureStorage,
FallbackStorage, ThreatMonitor, ModuleSandbox, GPXParser, SecurityCore)
against its specification.

The JavaScript sources are shallowly embedded: every pure transformation
becomes a Lean function over explicit data (strings, association lists,
JSON-like trees), stateful classes become explicit state-passing
functions, and the asynchronous retry loop of the encrypted store becomes
a fuel-indexed function whose `none` result marks a computation that has
not terminated within the given fuel.  Platform collaborators (Web
Crypto, JSON, base64, UTF-8, localStorage) are parameters constrained
only by the pointwise properties the platform documents.
-/

namespace TrailSync

/-! ## Sanitizer (`XSSProtection`, `part_000`)

`XSSProtection.sanitize` is a chain of seven global single-character
regex replacements.  No replacement string contains a character that a
later step of the chain replaces, so the sequential chain acts exactly
like a single simultaneous character-by-character substitution, which is
how it is embedded here.  Note that the source replaces `<` by `<` and
`>` by `>` (an identity substitution), not by `&lt;` / `&gt;`. -/

/-- One character of `XSSProtection.sanitize`: the image of the seven
`.replace` steps on a single input character. -/
def sanitizeChar (c : Char) : List Char :=
  if c = '&' then "&amp;".data
  else if c = '<' then "<".data
  else if c = '>' then ">".data
  else if c = '"' then "&quot;".data
  else if c = '\x27' then "&#039;".data
  else if c = '/' then "&#x2F;".data
  else if c = '\\' then "&#x5C;".data
  else [c]

/-- `XSSProtection.sanitize` on strings (the non-string passthrough
branch of the source is outside the string domain and is embedded by
`sanitizeAny` below). -/
def sanitize (s : String) : String :=
  String.mk (s.data.flatMap sanitizeChar)

/-- A JavaScript value reaching `XSSProtection.sanitize`: the source
first tests `typeof str !== \x27string\x27` and passes every non-string
argument through unchanged. -/
inductive SanInput where
  | str (s : String)
  | nonString (tag : Nat)
deriving DecidableEq, Repr

/-- `XSSProtection.sanitize` including its non-string passthrough. -/
def sanitizeAny : SanInput → SanInput
  | .str s => .str (sanitize s)
  | .nonString t => .nonString t

/-- C1: the claim states that `sanitize` escapes each of the characters
in the set containing ampersand, both angle brackets, both quotes, slash
and backslash, and that on the script-tag probe the output has no
literal angle bracket.  The code instead replaces each angle bracket
with itself, so both survive: on the probe input the output still
contains a literal opening and closing angle bracket, refuting the
claim (the non-string passthrough part does hold). -/
theorem c1_sanitize_keeps_angle_brackets :
    sanitize "<script>alert(1)</script>" = "<script>alert(1)<&#x2F;script>" ∧
    '<' ∈ (sanitize "<script>alert(1)</script>").data ∧
    '>' ∈ (sanitize "<script>alert(1)</script>").data ∧
    (∀ t, sanitizeAny (.nonString t) = .nonString t) := by
  refine ⟨by decide, by decide, by decide, fun t => rfl⟩

/-! ## Safe HTML insertion (`XSSProtection.safeInsertHtml`)

`safeInsertHtml` entity-encodes the fragment, parses it in a detached
element, and then rebuilds only top-level nodes that are text or whose
tag is on the allow-list, copying `class`/`style` attributes and copying
the inner HTML of the matched element verbatim (`safeNode.innerHTML =
node.innerHTML`).  The browser parse step is a platform collaborator;
the embedding takes the parsed top-level node forest as input and models
the serialize-then-reparse round trip of well-formed children as the
identity, which is exactly what happens on the counterexample below.

A DOM forest is a list of sibling nodes; each element node carries a
tag, an attribute list and a child forest. -/

inductive DomForest where
  | nil
  | constext (s : String) (rest : DomForest)
  | conselem (tag : String) (attrs : List (String × String)) (children : DomForest)
      (rest : DomForest)
deriving DecidableEq, Repr

/-- The model of `String.prototype.toLowerCase` used by the source on
tag names and detail keys. -/
def jsToLower (s : String) : String :=
  String.mk (s.data.map Char.toLower)

/-- The fixed allow-list of `safeInsertHtml`. -/
def allowedTags : List String :=
  ["b", "strong", "i", "em", "br", "span", "small", "sup", "sub"]

/-- The attribute-copy loop of `safeInsertHtml`: only `class` and
`style` are copied, each value re-encoded through `sanitize`. -/
def copySafeAttrs (attrs : List (String × String)) : List (String × String) :=
  attrs.filterMap fun a =>
    if a.1 = "class" ∨ a.1 = "style" then some (a.1, sanitize a.2) else none

/-- The rebuild loop of `safeInsertHtml` over the parsed top-level
forest: text nodes are kept as text, elements with an allowed tag are
re-created with the filtered attributes and their children copied
verbatim through the `innerHTML` assignment, and everything else is
dropped. -/
def rebuildForest : DomForest → DomForest
  | .nil => .nil
  | .constext s rest => .constext s (rebuildForest rest)
  | .conselem tag attrs children rest =>
    if allowedTags.contains (jsToLower tag) then
      .conselem tag (copySafeAttrs attrs) children (rebuildForest rest)
    else
      rebuildForest rest

/-- The safety predicate claimed for the rebuilt subtree: at every
nesting depth only text nodes and allow-listed elements occur, and
elements carry at most `class`/`style` attributes. -/
def forestOk : DomForest → Bool
  | .nil => true
  | .constext _ rest => forestOk rest
  | .conselem tag attrs children rest =>
    allowedTags.contains (jsToLower tag) &&
      attrs.all (fun a => a.1 = "class" || a.1 = "style") &&
      forestOk children && forestOk rest

/-- The parse of the fragment with a bold element wrapping an image that
carries an error handler (after the `sanitize` pass, which leaves both
angle brackets intact, the browser parses the bold element with the
image as its child). -/
def nestedImgFragment : DomForest :=
  .conselem "B" []
    (.conselem "IMG" [("src", "x"), ("onerror", "alert(1)")] .nil .nil) .nil

/-- C2: the claim states that no script-bearing element or attribute
survives at any nesting depth.  The rebuild loop inspects only the
top-level nodes and copies the children of an allowed element verbatim,
so an image element with an `onerror` handler nested inside an allowed
bold element survives in the result, refuting the claim. -/
theorem c2_nested_handler_survives_rebuild :
    rebuildForest nestedImgFragment =
      .conselem "B" []
        (.conselem "IMG" [("src", "x"), ("onerror", "alert(1)")] .nil .nil) .nil ∧
    forestOk (rebuildForest nestedImgFragment) = false := by
  exact ⟨by decide, by decide⟩

/-! ## ModuleSandbox (`sandbox.js`)

`ModuleSandbox.sanitizeSandboxData` recursively walks a message payload:
strings are passed through `XSSProtection.sanitize`; objects (and
arrays, which satisfy the JavaScript `typeof data === \x27object\x27`
test and are enumerated by `Object.entries` as index/value pairs) are
rebuilt as plain objects, skipping the keys `__proto__`, `constructor`
and `prototype`; every other value is returned unchanged.
`handleMessage` re-dispatches the sanitized payload to the host as the
detail of a custom event.

A structured-clone payload value is embedded as a JSON-like tree. -/

mutual

inductive JVal where
  | jnull
  | jbool (b : Bool)
  | jnum (q : Rat)
  | jstr (s : String)
  | jarr (elems : JArr)
  | jobj (fields : JObjFields)

inductive JArr where
  | anil
  | acons (v : JVal) (rest : JArr)

inductive JObjFields where
  | onil
  | ocons (k : String) (v : JVal) (rest : JObjFields)

end

/-- The prototype-pollution key list of `sanitizeSandboxData`. -/
def forbiddenKeys : List String := ["__proto__", "constructor", "prototype"]

mutual

/-- `ModuleSandbox.sanitizeSandboxData`.  The object branch of the
source handles both plain objects and arrays; `Object.entries` of an
array yields its elements keyed by their decimal indices, which is the
`sanitizeArrEntries` case. -/
def sanitizeSandboxData : JVal → JVal
  | .jstr s => .jstr (sanitize s)
  | .jobj fields => .jobj (sanitizeObjFields fields)
  | .jarr elems => .jobj (sanitizeArrEntries 0 elems)
  | .jnull => .jnull
  | .jbool b => .jbool b
  | .jnum q => .jnum q

/-- The `Object.entries` loop of `sanitizeSandboxData` on a plain
object: forbidden keys are skipped, every kept value is recursively
sanitized. -/
def sanitizeObjFields : JObjFields → JObjFields
  | .onil => .onil
  | .ocons k v rest =>
    if forbiddenKeys.contains k then sanitizeObjFields rest
    else .ocons k (sanitizeSandboxData v) (sanitizeObjFields rest)

/-- The same loop on the `Object.entries` view of an array, whose keys
are the decimal index strings. -/
def sanitizeArrEntries (i : Nat) : JArr → JObjFields
  | .anil => .onil
  | .acons v rest =>
    if forbiddenKeys.contains (toString i) then sanitizeArrEntries (i + 1) rest
    else .ocons (toString i) (sanitizeSandboxData v) (sanitizeArrEntries (i + 1) rest)

end

/-- The `SANDBOX_MESSAGE` branch of `ModuleSandbox.handleMessage`: the
detail of the custom event dispatched to the host application. -/
def hostDispatchDetail (payload : JVal) : JVal := sanitizeSandboxData payload

mutual

/-- No key named `__proto__`, `constructor` or `prototype` occurs at any
nesting depth. -/
def noBadKeysV : JVal → Bool
  | .jobj fields => noBadKeysO fields
  | .jarr elems => noBadKeysA elems
  | _ => true

def noBadKeysO : JObjFields → Bool
  | .onil => true
  | .ocons k v rest => !forbiddenKeys.contains k && noBadKeysV v && noBadKeysO rest

def noBadKeysA : JArr → Bool
  | .anil => true
  | .acons v rest => noBadKeysV v && noBadKeysA rest

end

mutual

/-- Every string value at any nesting depth satisfies `p`. -/
def strsSanV (p : String → Prop) : JVal → Prop
  | .jstr s => p s
  | .jobj fields => strsSanO p fields
  | .jarr elems => strsSanA p elems
  | _ => True

def strsSanO (p : String → Prop) : JObjFields → Prop
  | .onil => True
  | .ocons _ v rest => strsSanV p v ∧ strsSanO p rest

def strsSanA (p : String → Prop) : JArr → Prop
  | .anil => True
  | .acons v rest => strsSanV p v ∧ strsSanA p rest

end

mutual

/-- No array value occurs at any nesting depth. -/
def arrFreeV : JVal → Bool
  | .jarr _ => false
  | .jobj fields => arrFreeO fields
  | _ => true

def arrFreeO : JObjFields → Bool
  | .onil => true
  | .ocons _ v rest => arrFreeV v && arrFreeO rest

end

mutual

theorem noBad_sanV (v : JVal) : noBadKeysV (sanitizeSandboxData v) = true :=
  match v with
  | .jstr _ => rfl
  | .jnull => rfl
  | .jbool _ => rfl
  | .jnum _ => rfl
  | .jobj fields => noBad_sanO fields
  | .jarr elems => noBad_sanA 0 elems

theorem noBad_sanO (fields : JObjFields) :
    noBadKeysO (sanitizeObjFields fields) = true :=
  match fields with
  | .onil => rfl
  | .ocons k v rest => by
    by_cases h : forbiddenKeys.contains k
    · rw [sanitizeObjFields, if_pos h]
      exact noBad_sanO rest
    · rw [sanitizeObjFields, if_neg h, noBadKeysO]
      have hb : forbiddenKeys.contains k = false := by simpa using h
      rw [hb]
      simp [noBad_sanV v, noBad_sanO rest]

theorem noBad_sanA (i : Nat) (elems : JArr) :
    noBadKeysO (sanitizeArrEntries i elems) = true :=
  match elems with
  | .anil => rfl
  | .acons v rest => by
    by_cases h : forbiddenKeys.contains (toString i)
    · rw [sanitizeArrEntries, if_pos h]
      exact noBad_sanA (i + 1) rest
    · rw [sanitizeArrEntries, if_neg h, noBadKeysO]
      have hb : forbiddenKeys.contains (toString i) = false := by simpa using h
      rw [hb]
      simp [noBad_sanV v, noBad_sanA (i + 1) rest]

end

mutual

theorem strs_sanV (v : JVal) :
    strsSanV (fun s => ∃ t, s = sanitize t) (sanitizeSandboxData v) :=
  match v with
  | .jstr s => ⟨s, rfl⟩
  | .jnull => trivial
  | .jbool _ => trivial
  | .jnum _ => trivial
  | .jobj fields => strs_sanO fields
  | .jarr elems => strs_sanA 0 elems

theorem strs_sanO (fields : JObjFields) :
    strsSanO (fun s => ∃ t, s = sanitize t) (sanitizeObjFields fields) :=
  match fields with
  | .onil => trivial
  | .ocons k v rest => by
    by_cases h : forbiddenKeys.contains k
    · rw [sanitizeObjFields, if_pos h]
      exact strs_sanO rest
    · rw [sanitizeObjFields, if_neg h]
      exact ⟨strs_sanV v, strs_sanO rest⟩

theorem strs_sanA (i : Nat) (elems : JArr) :
    strsSanO (fun s => ∃ t, s = sanitize t) (sanitizeArrEntries i elems) :=
  match elems with
  | .anil => trivial
  | .acons v rest => by
    by_cases h : forbiddenKeys.contains (toString i)
    · rw [sanitizeArrEntries, if_pos h]
      exact strs_sanA (i + 1) rest
    · rw [sanitizeArrEntries, if_neg h]
      exact ⟨strs_sanV v, strs_sanA (i + 1) rest⟩

end

/-- C8: every payload re-dispatched to the host has no key named
`__proto__`, `constructor` or `prototype` at any nesting depth, and
every string value in it has passed through the Sanitizer. -/
theorem c8_dispatched_payload_is_sanitized (payload : JVal) :
    noBadKeysV (hostDispatchDetail payload) = true ∧
    strsSanV (fun s => ∃ t, s = sanitize t) (hostDispatchDetail payload) :=
  ⟨noBad_sanV payload, strs_sanV payload⟩

/-! Decimal index strings are never on the forbidden-key list, so the
array branch of `sanitizeSandboxData` keeps every element. -/

lemma digitChar_isDigit (m : Nat) (h : m < 10) : (Nat.digitChar m).isDigit = true := by
  interval_cases m <;> decide

lemma toDigitsCore_digits (f : Nat) :
    ∀ (n : Nat) (acc : List Char), (∀ c ∈ acc, c.isDigit = true) →
      ∀ c ∈ Nat.toDigitsCore 10 f n acc, c.isDigit = true := by
  induction f with
  | zero =>
    intro n acc hacc c hc
    rw [Nat.toDigitsCore] at hc
    exact hacc c hc
  | succ f ih =>
    intro n acc hacc c hc
    rw [Nat.toDigitsCore] at hc
    by_cases hx : n / 10 = 0
    · rw [if_pos hx] at hc
      rcases List.mem_cons.mp hc with h1 | h2
      · subst h1; exact digitChar_isDigit _ (Nat.mod_lt _ (by norm_num))
      · exact hacc c h2
    · rw [if_neg hx] at hc
      refine ih (n / 10) _ ?_ c hc
      intro d hd
      rcases List.mem_cons.mp hd with h1 | h2
      · subst h1; exact digitChar_isDigit _ (Nat.mod_lt _ (by norm_num))
      · exact hacc d h2

lemma repr_digits (n : Nat) : ∀ c ∈ (Nat.repr n).data, c.isDigit = true := by
  intro c hc
  have hd : (Nat.repr n).data = Nat.toDigitsCore 10 (n + 1) n [] := rfl
  rw [hd] at hc
  exact toDigitsCore_digits (n + 1) n [] (by intro d hd2; cases hd2) c hc

lemma toString_nat_ne (n : Nat) (s : String) (c : Char) (hc : c ∈ s.data)
    (hcd : c.isDigit = false) : toString n ≠ s := by
  intro h
  have hdig := repr_digits n c (by rw [show (Nat.repr n) = s from h]; exact hc)
  rw [hcd] at hdig
  exact Bool.false_ne_true hdig

lemma toString_nat_not_forbidden (i : Nat) :
    forbiddenKeys.contains (toString i) = false := by
  have h1 : toString i ≠ "__proto__" := toString_nat_ne i _ '_' (by decide) (by decide)
  have h2 : toString i ≠ "constructor" := toString_nat_ne i _ 'c' (by decide) (by decide)
  have h3 : toString i ≠ "prototype" := toString_nat_ne i _ 'p' (by decide) (by decide)
  simp [forbiddenKeys, List.contains, h1, h2, h3]

/-- The shape the specification ascribes to a sanitized array: a plain
object whose keys are exactly the decimal indices of the array, in
order, with the recursively sanitized elements as values. -/
def arrEntriesSpec (i : Nat) : JArr → JObjFields
  | .anil => .onil
  | .acons v rest => .ocons (toString i) (sanitizeSandboxData v) (arrEntriesSpec (i + 1) rest)

lemma sanitizeArrEntries_eq_spec (i : Nat) (elems : JArr) :
    sanitizeArrEntries i elems = arrEntriesSpec i elems :=
  match elems with
  | .anil => rfl
  | .acons v rest => by
    rw [sanitizeArrEntries, arrEntriesSpec, sanitizeArrEntries_eq_spec (i + 1) rest,
      if_neg (by simpa using toString_nat_not_forbidden i)]

mutual

theorem arrFree_sanV (v : JVal) : arrFreeV (sanitizeSandboxData v) = true :=
  match v with
  | .jstr _ => rfl
  | .jnull => rfl
  | .jbool _ => rfl
  | .jnum _ => rfl
  | .jobj fields => arrFree_sanO fields
  | .jarr elems => arrFree_sanA 0 elems

theorem arrFree_sanO (fields : JObjFields) :
    arrFreeO (sanitizeObjFields fields) = true :=
  match fields with
  | .onil => rfl
  | .ocons k v rest => by
    by_cases h : forbiddenKeys.contains k
    · rw [sanitizeObjFields, if_pos h]
      exact arrFree_sanO rest
    · rw [sanitizeObjFields, if_neg h, arrFreeO]
      simp [arrFree_sanV v, arrFree_sanO rest]

theorem arrFree_sanA (i : Nat) (elems : JArr) :
    arrFreeO (sanitizeArrEntries i elems) = true :=
  match elems with
  | .anil => rfl
  | .acons v rest => by
    rw [sanitizeArrEntries, if_neg (by simpa using toString_nat_not_forbidden i), arrFreeO]
    simp [arrFree_sanV v, arrFree_sanA (i + 1) rest]

end

/-- C9: every array in a sandbox payload is replaced by a plain
non-array object keyed by the decimal indices of the array, and the
payload dispatched to the host contains no array at any depth. -/
theorem c9_arrays_become_index_keyed_objects :
    (∀ elems : JArr,
      sanitizeSandboxData (.jarr elems) = .jobj (arrEntriesSpec 0 elems)) ∧
    (∀ payload : JVal, arrFreeV (hostDispatchDetail payload) = true) :=
  ⟨fun elems => by rw [sanitizeSandboxData, sanitizeArrEntries_eq_spec],
   fun payload => arrFree_sanV payload⟩

/-! ## SecureStorage and FallbackStorage (`storage.js`)

`SecureStorage.setItem` JSON-serializes the value, encrypts the UTF-8
bytes under the derived key with a fresh 12-byte nonce, and stores the
JSON envelope with base64 `iv` and `data` fields under `"secure_" +
key`.  `getItem` reverses the pipeline; on an `OperationError` from the
decrypt call it removes the persisted key blob, re-runs key derivation
and calls itself again.  The embedding passes the browser storage as an
explicit map, keeps a fuel bound on the retry recursion (`none` marks a
call still running after `fuel` retries), and numbers the decrypt
attempts so that the platform can answer differently after each key
re-derivation.

The platform collaborators (`JSON`, `TextEncoder`/`TextDecoder`,
`btoa`/`atob`, `crypto.subtle`) are bundled as explicit function
parameters; theorems assume only the pointwise laws the platform
documents for them. -/

/-- The two failure classes `getItem` distinguishes: the
`OperationError` thrown by an authentication failure of the decrypt
call, and every other exception. -/
inductive CryptoErr where
  | opError
  | otherError
deriving DecidableEq, Repr

structure Platform where
  stringify : JVal → String
  jsonParse : String → Option JVal
  utf8Encode : String → List Nat
  utf8Decode : List Nat → String
  b64Encode : List Nat → String
  b64Decode : String → Option (List Nat)
  enc : List Nat → List Nat → List Nat
  dec : Nat → List Nat → List Nat → Except CryptoErr (List Nat)

/-- `localStorage.setItem` on the map embedding of the browser store. -/
def lsSet (ls : String → Option String) (k v : String) : String → Option String :=
  fun k2 => if k2 = k then some v else ls k2

/-- Reading one string-valued field of a parsed JSON object (the
destructuring of the parsed envelope reads the `iv` and `data`
fields by name). -/
def jLookupStr : JObjFields → String → Option String
  | .onil, _ => none
  | .ocons k v rest, key =>
    if k = key then
      match v with
      | .jstr s => some s
      | _ => none
    else jLookupStr rest key

/-- The destructuring of the parsed envelope into its `iv` and `data`
fields; any other
shape makes the subsequent base64/decrypt step throw a non-operation
error, which `getItem` turns into `null`. -/
def envFields (v : JVal) : Option (String × String) :=
  match v with
  | .jobj fields =>
    match jLookupStr fields "iv", jLookupStr fields "data" with
    | some i, some d => some (i, d)
    | _, _ => none
  | _ => none

/-- The envelope object `setItem` builds: base64 `iv` and base64
ciphertext `data`. -/
def secEnvelope (P : Platform) (v : JVal) (iv : List Nat) : JVal :=
  .jobj (.ocons "iv" (.jstr (P.b64Encode iv))
    (.ocons "data" (.jstr (P.b64Encode (P.enc iv (P.utf8Encode (P.stringify v))))) .onil))

/-- `SecureStorage.setItem` (with the key READY and the fresh random
nonce passed explicitly): stores the JSON envelope under
`"secure_" + key`. -/
def secSetItem (P : Platform) (ls : String → Option String) (key : String) (v : JVal)
    (iv : List Nat) : String → Option String :=
  lsSet ls ("secure_" ++ key) (P.stringify (secEnvelope P v iv))

/-- `SecureStorage.getItem`: look up the envelope (absent gives
`null`), parse it, base64-decode the fields, decrypt and JSON-parse.
Failures other than `OperationError` resolve to `null`; an
`OperationError` discards the key blob, re-derives the key and
re-enters `getItem` (the `attempt` index advances so the platform can
model the re-derived key).  The result is `some r` when the call
resolves with `r`, and `none` when the recursion is still running after
`fuel` retries. -/
def secGetItem (P : Platform) (ls : String → Option String) (key : String) :
    Nat → Nat → Option (Option JVal)
  | fuel, attempt =>
    match ls ("secure_" ++ key) with
    | none => some none
    | some stored =>
      match P.jsonParse stored with
      | none => some none
      | some env =>
        match envFields env with
        | none => some none
        | some (ivs, ds) =>
          match P.b64Decode ivs, P.b64Decode ds with
          | some ivb, some db =>
            (match P.dec attempt ivb db with
             | .ok bytes =>
               match P.jsonParse (P.utf8Decode bytes) with
               | some v => some (some v)
               | none => some none
             | .error .otherError => some none
             | .error .opError =>
               match fuel with
               | 0 => none
               | f + 1 => secGetItem P ls key f (attempt + 1))
          | _, _ => some none

/-- The byte shift of the fallback obfuscation:
`this.obfuscationKey.length` for `obfuscationKey = "TRAILSYNC_FALLBACK"`. -/
def obfsShift : Nat := "TRAILSYNC_FALLBACK".length

/-- `FallbackStorage._obfuscate`: shift every UTF-16 code unit up by
the key length (`String.fromCharCode` truncates to 16 bits). -/
def fbObfuscate (s : String) : String :=
  String.mk (s.data.map fun c => Char.ofNat ((c.toNat + obfsShift) % 65536))

/-- `FallbackStorage._deobfuscate`: the inverse shift (char codes are
16-bit, so the subtraction wraps modulo 65536). -/
def fbDeobfuscate (s : String) : String :=
  String.mk (s.data.map fun c => Char.ofNat ((c.toNat + 65536 - obfsShift) % 65536))

/-- `FallbackStorage.setItem`:
`btoa(unescape(encodeURIComponent(JSON.stringify(value))))` is base64
over the UTF-8 bytes of the JSON text; the result is obfuscated and
stored under `"fallback_" + key`. -/
def fbSetItem (P : Platform) (ls : String → Option String) (key : String) (v : JVal) :
    String → Option String :=
  lsSet ls ("fallback_" ++ key) (fbObfuscate (P.b64Encode (P.utf8Encode (P.stringify v))))

/-- `FallbackStorage.getItem`: de-obfuscate, base64-decode, UTF-8
decode and JSON-parse; every failure is caught and resolves to
`null`. -/
def fbGetItem (P : Platform) (ls : String → Option String) (key : String) : Option JVal :=
  match ls ("fallback_" ++ key) with
  | none => none
  | some obf =>
    match P.b64Decode (fbDeobfuscate obf) with
    | none => none
    | some bytes =>
      match P.jsonParse (P.utf8Decode bytes) with
      | some v => some v
      | none => none

lemma charToNat_ofNat (m : Nat) (h : m < 55296) : (Char.ofNat m).toNat = m := by
  have hv : m.isValidChar := Or.inl (by omega)
  simp [Char.ofNat, hv, Char.ofNatAux, Char.toNat, UInt32.toNat, UInt32.ofNatCore]

lemma fb_char_roundtrip (c : Char) (h : c.toNat < 128) :
    Char.ofNat (((Char.ofNat ((c.toNat + obfsShift) % 65536)).toNat + 65536 - obfsShift)
      % 65536) = c := by
  have hsh : obfsShift = 18 := by decide
  rw [hsh]
  have h1 : (c.toNat + 18) % 65536 = c.toNat + 18 := Nat.mod_eq_of_lt (by omega)
  rw [h1, charToNat_ofNat _ (by omega)]
  have h2 : (c.toNat + 18 + 65536 - 18) % 65536 = c.toNat := by omega
  rw [h2, Char.ofNat_toNat]

lemma fb_map_roundtrip (l : List Char) (h : ∀ c ∈ l, c.toNat < 128) :
    ((l.map fun c => Char.ofNat ((c.toNat + obfsShift) % 65536)).map
      fun c => Char.ofNat ((c.toNat + 65536 - obfsShift) % 65536)) = l := by
  induction l with
  | nil => rfl
  | cons c cs ih =>
    simp only [List.map_cons]
    rw [fb_char_roundtrip c (h c (List.mem_cons_self c cs)),
      ih fun d hd => h d (List.mem_cons_of_mem c hd)]

lemma fbDeobfuscate_obfuscate (s : String) (h : ∀ c ∈ s.data, c.toNat < 128) :
    fbDeobfuscate (fbObfuscate s) = s := by
  obtain ⟨data⟩ := s
  simp only [fbObfuscate, fbDeobfuscate]
  rw [fb_map_roundtrip data h]

/-- C4: under the platform laws (JSON parse inverts stringify, atob
inverts btoa, the decoder inverts the encoder, decryption under the
same key and nonce inverts encryption, and base64 output is ASCII),
writing a value and reading the same key returns the value unchanged
for both the encrypted store and the fallback store, and reading a key
that was never written resolves to `null` for both stores. -/
theorem c4_round_trip (P : Platform) (ls : String → Option String) (key : String)
    (v : JVal) (iv : List Nat) (fuel : Nat)
    (hjv : P.jsonParse (P.stringify v) = some v)
    (hje : P.jsonParse (P.stringify (secEnvelope P v iv)) = some (secEnvelope P v iv))
    (hbi : P.b64Decode (P.b64Encode iv) = some iv)
    (hbc : P.b64Decode (P.b64Encode (P.enc iv (P.utf8Encode (P.stringify v)))) =
      some (P.enc iv (P.utf8Encode (P.stringify v))))
    (hud : P.utf8Decode (P.utf8Encode (P.stringify v)) = P.stringify v)
    (hdec : P.dec 0 iv (P.enc iv (P.utf8Encode (P.stringify v))) =
      Except.ok (P.utf8Encode (P.stringify v)))
    (hbf : P.b64Decode (P.b64Encode (P.utf8Encode (P.stringify v))) =
      some (P.utf8Encode (P.stringify v)))
    (hbascii : ∀ c ∈ (P.b64Encode (P.utf8Encode (P.stringify v))).data, c.toNat < 128) :
    secGetItem P (secSetItem P ls key v iv) key (fuel + 1) 0 = some (some v) ∧
    fbGetItem P (fbSetItem P ls key v) key = some v ∧
    (ls ("secure_" ++ key) = none → secGetItem P ls key (fuel + 1) 0 = some none) ∧
    (ls ("fallback_" ++ key) = none → fbGetItem P ls key = none) := by
  have hstore : secSetItem P ls key v iv ("secure_" ++ key) =
      some (P.stringify (secEnvelope P v iv)) := by
    simp [secSetItem, lsSet]
  have hstore2 : fbSetItem P ls key v ("fallback_" ++ key) =
      some (fbObfuscate (P.b64Encode (P.utf8Encode (P.stringify v)))) := by
    simp [fbSetItem, lsSet]
  simp only [secEnvelope] at hstore hje
  refine ⟨?_, ?_, ?_, ?_⟩
  · simp only [secGetItem, hstore, hje, envFields, jLookupStr, hbi, hbc,
      hdec, hud, hjv, reduceIte, String.reduceEq]
  · simp only [fbGetItem, hstore2, fbDeobfuscate_obfuscate _ hbascii, hbf, hud, hjv]
  · intro hmiss
    simp only [secGetItem, hmiss]
  · intro hmiss
    simp only [fbGetItem, hmiss]

/-- A fixed envelope value used by the concrete platforms below. -/
def stubEnv : JVal :=
  .jobj (.ocons "iv" (.jstr "b") (.ocons "data" (.jstr "b") .onil))

/-- A platform whose decrypt call fails with `OperationError` on every
attempt: the situation of an envelope that no derivable key
authenticates (for example one synced from another device, which is the
very scenario the retry path is commented with). -/
def opFailPlatform : Platform where
  stringify := fun _ => "E"
  jsonParse := fun _ => some stubEnv
  utf8Encode := fun _ => []
  utf8Decode := fun _ => ""
  b64Encode := fun _ => "b"
  b64Decode := fun _ => some []
  enc := fun _ d => d
  dec := fun _ _ _ => .error .opError

/-- A platform whose decrypt call fails with `OperationError` on the
first two attempts and succeeds on the third. -/
def thirdTryPlatform : Platform where
  stringify := fun _ => "E"
  jsonParse := fun s => if s = "x" then some (.jstr "x") else some stubEnv
  utf8Encode := fun _ => []
  utf8Decode := fun _ => "x"
  b64Encode := fun _ => "b"
  b64Decode := fun _ => some []
  enc := fun _ d => d
  dec := fun attempt _ _ => if attempt < 2 then .error .opError else .ok []

/-- A browser store holding one envelope under `secure_history`. -/
def lsWithEnvelope : String → Option String :=
  fun k => if k = "secure_history" then some "E" else none

/-- C3: the claim states that `getItem` retries exactly once after an
`OperationError` and resolves to `null` when the retry fails too.  The
catch block has no retry guard: with a persistently failing envelope
the call re-derives the key and re-enters itself on every attempt, so
for every retry bound the computation is still running (it never
resolves to `null`), and with a decrypt that succeeds only on the third
attempt the call resolves with the value after a second retry. -/
theorem c3_retry_is_unbounded :
    (∀ fuel attempt,
      secGetItem opFailPlatform lsWithEnvelope "history" fuel attempt = none) ∧
    secGetItem thirdTryPlatform lsWithEnvelope "history" 5 0 = some (some (.jstr "x")) := by
  constructor
  · intro fuel
    induction fuel with
    | zero =>
      intro attempt
      simp [secGetItem, opFailPlatform, lsWithEnvelope, stubEnv, envFields, jLookupStr]
    | succ f ih =>
      intro attempt
      simp [secGetItem, opFailPlatform, lsWithEnvelope, stubEnv, envFields, jLookupStr]
      exact ih (attempt + 1)
  · simp [secGetItem, thirdTryPlatform, lsWithEnvelope, stubEnv, envFields, jLookupStr]

/-- A minimal concrete platform satisfying the pointwise laws of
`c4_round_trip` at the witness values. -/
def witPlatform : Platform where
  stringify := fun w =>
    match w with
    | .jstr s => s
    | _ => "E"
  jsonParse := fun s => if s = "E" then some stubEnv else some (.jstr s)
  utf8Encode := fun _ => []
  utf8Decode := fun _ => "a"
  b64Encode := fun _ => "b"
  b64Decode := fun _ => some []
  enc := fun _ d => d
  dec := fun _ _ _ => .ok []

/-- C4 witness: the round trip and the missing-key reads evaluated on
a concrete platform, store, key and value. -/
theorem c4_round_trip_witness :
    secGetItem witPlatform
        (secSetItem witPlatform (fun _ => none) "k" (.jstr "a") []) "k" 1 0 =
      some (some (.jstr "a")) ∧
    fbGetItem witPlatform (fbSetItem witPlatform (fun _ => none) "k" (.jstr "a")) "k" =
      some (.jstr "a") ∧
    secGetItem witPlatform (fun _ => none) "k" 1 0 = some none ∧
    fbGetItem witPlatform (fun _ => none) "k" = none := by
  have h := c4_round_trip witPlatform (fun _ => none) "k" (.jstr "a") [] 0
    rfl rfl rfl rfl rfl rfl rfl (by decide)
  exact ⟨h.1, h.2.1, h.2.2.1 rfl, h.2.2.2 rfl⟩

/-! ## SecurityCore (`security.js`)

`SecurityCore.logSecurityEvent` scrubs the details object through
`_sanitizeDetails` and hands the result to the logger.  A top-level
detail value is a JavaScript primitive. -/

inductive JsPrim where
  | pstr (s : String)
  | pnum (q : Rat)
  | pbool (b : Bool)
  | pnull
deriving DecidableEq, Repr

/-- The model of `parseFloat(value.toFixed(2))`: the numeric value
rounded to two decimal places (JavaScript numbers are embedded as
rationals). -/
def round2 (q : Rat) : Rat := (round (q * 100) : Int) / 100

/-- `SecurityCore._sanitizeDetails`: the `for`-loop over
`Object.entries(details)` skips the keys whose lowercased name is
`route`, `eph` or `password`, rounds numeric values, entity-encodes
string values and keeps every other value unchanged. -/
def droppedDetailKey (k : String) : Bool :=
  ["route", "eph", "password"].contains (jsToLower k)

def sanitizeDetails (details : List (String × JsPrim)) : List (String × JsPrim) :=
  details.filterMap fun kv =>
    if droppedDetailKey kv.1 then none
    else some (kv.1,
      match kv.2 with
      | .pnum q => .pnum (round2 q)
      | .pstr s => .pstr (sanitize s)
      | v => v)

/-- `SecurityCore.logSecurityEvent`: the pair handed to
`this.logger.log`. -/
def logSecurityEvent (eventType : String) (details : List (String × JsPrim)) :
    String × List (String × JsPrim) :=
  (eventType, sanitizeDetails details)

/-- The transformation the claim describes, per field. -/
def detailValueSpec : JsPrim → JsPrim
  | .pnum q => .pnum (round2 q)
  | .pstr s => .pstr (sanitize s)
  | v => v

/-- The claim-shaped scrub: drop the route/eph/password fields, then
transform each remaining value. -/
def sanitizeDetailsSpec (details : List (String × JsPrim)) : List (String × JsPrim) :=
  (details.filter fun kv => !droppedDetailKey kv.1).map
    fun kv => (kv.1, detailValueSpec kv.2)

lemma sanitizeDetails_eq_spec (details : List (String × JsPrim)) :
    sanitizeDetails details = sanitizeDetailsSpec details := by
  induction details with
  | nil => rfl
  | cons kv rest ih =>
    obtain ⟨k, v⟩ := kv
    by_cases h : droppedDetailKey k
    · simp only [sanitizeDetails, sanitizeDetailsSpec, List.filterMap_cons,
        List.filter_cons, h] at ih ⊢
      simpa using ih
    · cases v <;>
        · simp only [sanitizeDetails, sanitizeDetailsSpec, List.filterMap_cons,
            List.filter_cons, h, detailValueSpec] at ih ⊢
          simpa using ih

/-- C10: the logger receives the event type together with a copy of the
details in which every field with lowercased name `route`, `eph` or
`password` has been dropped, every numeric field has been rounded to two
decimal places, every string field has been entity-encoded and every
other field is unchanged. -/
theorem c10_log_receives_scrubbed_details (eventType : String)
    (details : List (String × JsPrim)) :
    logSecurityEvent eventType details = (eventType, sanitizeDetailsSpec details) := by
  rw [logSecurityEvent, sanitizeDetails_eq_spec]

/-! ## ThreatMonitor (`threat-monitor.js`)

`recordEvent` builds an event whose `details` field is the
`_sanitizeEventData` scrub of the argument, appends it to the bounded
history, re-evaluates the threat level, and then forwards the event type
together with the ORIGINAL `details` argument (not the scrubbed copy) to
`window.security.logSecurityEvent`. -/

/-- `ThreatMonitor._sanitizeEventData` on an object: fields named
`password`/`token`/`cookie` (case-insensitively) are dropped and string
values longer than 200 characters are truncated with an ellipsis
marker. -/
def scrubbedEventKey (k : String) : Bool :=
  ["password", "token", "cookie"].contains (jsToLower k)

def sanitizeEventData (data : List (String × JsPrim)) : List (String × JsPrim) :=
  data.filterMap fun kv =>
    if scrubbedEventKey kv.1 then none
    else some (kv.1,
      match kv.2 with
      | .pstr s =>
        if 200 < s.length then .pstr (String.mk (s.data.take 200) ++ "...") else .pstr s
      | v => v)

/-- One entry of the bounded event history of the monitor. -/
structure TMEvent where
  ts : Nat
  ty : String
  details : List (String × JsPrim)
  risk : Nat
deriving DecidableEq, Repr

/-- The monitor state: the bounded history, the warning latch, and the
number of times the block path (`_blockAccess`) has been invoked. -/
structure TMState where
  history : List TMEvent
  warningShown : Bool
  blockCount : Nat
deriving DecidableEq, Repr

def tmInit : TMState := ⟨[], false, 0⟩

def suspiciousThreshold : Nat := 3

def blockThreshold : Nat := 5

def blockDuration : Nat := 300000

/-- The fixed risk table of `_calculateRiskLevel`. -/
def riskLevels : List (String × Nat) :=
  [("CROSS_ORIGIN_MESSAGE", 2), ("DEVELOPER_TOOLS_ATTEMPT", 1),
   ("RAPID_KEYSTROKES", 3), ("POSSIBLE_XSS_SCAN", 5),
   ("MODULE_LOAD_FAILED", 2), ("INVALID_GPX", 1), ("TRANSLATION_FAILED", 1)]

/-- `_calculateRiskLevel`: table lookup with default 1 (the source uses
a falsy-default; no table entry is zero, so the default only fires on a
missing entry). -/
def calculateRiskLevel (ty : String) : Nat :=
  match riskLevels.lookup ty with
  | some r => r
  | none => 1

/-- `_showWarning`: latches the warning banner (at most one shown
concurrently). -/
def showWarning (st : TMState) : TMState :=
  if st.warningShown then st else { st with warningShown := true }

/-- `_blockAccess`: the block path (renders the block page, registers
the time-boxed block and schedules the unblock); the embedding counts
its invocations. -/
def blockAccess (st : TMState) : TMState :=
  { st with blockCount := st.blockCount + 1 }

/-- The summed risk weight over the trailing 60-second window. -/
def windowScore (history : List TMEvent) (now : Nat) : Nat :=
  ((history.filter fun e => now - e.ts < 60000).map fun e => e.risk).sum

/-- `_checkThreatLevel`: warn on a windowed score in
`[suspiciousThreshold, blockThreshold)`, block on a score at or above
`blockThreshold`. -/
def checkThreatLevel (st : TMState) (now : Nat) : TMState :=
  let riskScore := windowScore st.history now
  let st1 :=
    if suspiciousThreshold ≤ riskScore ∧ riskScore < blockThreshold then showWarning st
    else st
  if blockThreshold ≤ riskScore then blockAccess st1 else st1

/-- `ThreatMonitor.recordEvent`: build the event with scrubbed details,
append (evicting the oldest entry beyond capacity 100), re-check the
threat level, and forward `(type, details)` — the original, unscrubbed
details — to the logging sink.  The second component is the argument
pair of that sink call. -/
def recordEvent (st : TMState) (now : Nat) (ty : String)
    (details : List (String × JsPrim)) :
    TMState × (String × List (String × JsPrim)) :=
  let ev : TMEvent := ⟨now, ty, sanitizeEventData details, calculateRiskLevel ty⟩
  let h1 := st.history ++ [ev]
  let h2 := if 100 < h1.length then h1.tail else h1
  (checkThreatLevel { st with history := h2 } now, (ty, details))

/-- C5 counterexample: recording an event whose details carry a `token`
field forwards the field to the logging sink untouched, although the
scrub (applied only to the buffered copy) would have dropped it. -/
theorem c5_sink_receives_unscrubbed_token :
    (recordEvent tmInit 0 "CROSS_ORIGIN_MESSAGE" [("token", .pstr "secret")]).2 =
      ("CROSS_ORIGIN_MESSAGE", [("token", .pstr "secret")]) ∧
    sanitizeEventData [("token", .pstr "secret")] = [] := by
  exact ⟨rfl, by decide⟩

lemma checkThreatLevel_history (st : TMState) (now : Nat) :
    (checkThreatLevel st now).history = st.history := by
  simp only [checkThreatLevel, showWarning, blockAccess]
  split_ifs <;> rfl

/-- C5 amended: the PII scrub is applied only to the copy of the details
stored in the buffered event; the logging sink receives the original
details object unchanged. -/
theorem c5_scrub_applies_to_buffer_not_sink (st : TMState) (now : Nat)
    (ty : String) (details : List (String × JsPrim)) :
    (recordEvent st now ty details).2 = (ty, details) ∧
    (recordEvent st now ty details).1.history.getLast? =
      some ⟨now, ty, sanitizeEventData details, calculateRiskLevel ty⟩ := by
  refine ⟨rfl, ?_⟩
  show (checkThreatLevel _ now).history.getLast? = _
  rw [checkThreatLevel_history]
  by_cases h : 100 < (st.history ++
      [(⟨now, ty, sanitizeEventData details, calculateRiskLevel ty⟩ : TMEvent)]).length
  · simp only [if_pos h]
    have hne : st.history ≠ [] := by
      intro hnil
      rw [hnil] at h
      simp at h
    rcases List.exists_cons_of_ne_nil hne with ⟨e, l, heq⟩
    rw [heq]
    simp [List.getLast?_concat]
  · simp only [if_neg h]
    simp [List.getLast?_concat]

/-- A sequence of `recordEvent` calls with empty details, driven by the
listed timestamps and event types. -/
def runEvents (st : TMState) (evs : List (Nat × String)) : TMState :=
  evs.foldl (fun s e => (recordEvent s e.1 e.2 []).1) st

/-- A weight-1 event as buffered by the monitor. -/
def gpxEv (t : Nat) : TMEvent := ⟨t, "INVALID_GPX", [], 1⟩

lemma calcRisk_gpx : calculateRiskLevel "INVALID_GPX" = 1 := by decide

lemma recordEvent_gpx (st : TMState) (now : Nat) (h : st.history.length ≤ 99) :
    (recordEvent st now "INVALID_GPX" []).1 =
      ⟨st.history ++ [gpxEv now],
       if suspiciousThreshold ≤ windowScore (st.history ++ [gpxEv now]) now ∧
           windowScore (st.history ++ [gpxEv now]) now < blockThreshold then true
       else st.warningShown,
       if blockThreshold ≤ windowScore (st.history ++ [gpxEv now]) now then
         st.blockCount + 1
       else st.blockCount⟩ := by
  have hev : (⟨now, "INVALID_GPX", sanitizeEventData [], calculateRiskLevel "INVALID_GPX"⟩ :
      TMEvent) = gpxEv now := by
    simp [sanitizeEventData, calcRisk_gpx, gpxEv]
  have hlen : ¬ 100 < (st.history ++ [gpxEv now]).length := by
    simp [List.length_append]
    omega
  simp only [recordEvent, hev, if_neg hlen, checkThreatLevel, showWarning, blockAccess]
  split_ifs <;> simp_all

lemma windowScore_gpxEvs (ts : List Nat) (now : Nat) :
    windowScore (ts.map gpxEv) now = (ts.filter fun t => now - t < 60000).length := by
  induction ts with
  | nil => rfl
  | cons t rest ih =>
    by_cases h : now - t < 60000
    · simp [windowScore, gpxEv, List.filter_cons, h] at ih ⊢
      omega
    · simp [windowScore, gpxEv, List.filter_cons, h] at ih ⊢
      exact ih

lemma step_gpx (hist : List TMEvent) (w : Bool) (b : Nat) (now : Nat) (score : Nat)
    (hlen : hist.length ≤ 99)
    (hscore : windowScore (hist ++ [gpxEv now]) now = score) :
    (recordEvent ⟨hist, w, b⟩ now "INVALID_GPX" []).1 =
      ⟨hist ++ [gpxEv now],
       if 3 ≤ score ∧ score < 5 then true else w,
       if 5 ≤ score then b + 1 else b⟩ := by
  rw [recordEvent_gpx ⟨hist, w, b⟩ now (by simpa using hlen)]
  simp only [hscore, suspiciousThreshold, blockThreshold]

lemma step_gpx_lt3 (hist : List TMEvent) (w : Bool) (b : Nat) (now : Nat)
    (hlen : hist.length ≤ 99)
    (hscore : windowScore (hist ++ [gpxEv now]) now < 3) :
    (recordEvent ⟨hist, w, b⟩ now "INVALID_GPX" []).1 = ⟨hist ++ [gpxEv now], w, b⟩ := by
  rw [recordEvent_gpx ⟨hist, w, b⟩ now (by simpa using hlen)]
  simp only [suspiciousThreshold, blockThreshold]
  rw [if_neg (by omega), if_neg (by omega)]

/-- C6: five weight-1 events recorded within a 60-second span drive the
trailing-window risk score to the block threshold of 5 and invoke the
block path exactly once; the same five events with at least 30 seconds
between consecutive events (as when spread evenly across 2 minutes)
never reach the threshold and never invoke the block path. -/
theorem c6_block_window (t1 t2 t3 t4 t5 : Nat)
    (h12 : t1 ≤ t2) (h23 : t2 ≤ t3) (h34 : t3 ≤ t4) (h45 : t4 ≤ t5) :
    (t5 < t1 + 60000 →
      (runEvents tmInit [(t1, "INVALID_GPX"), (t2, "INVALID_GPX"), (t3, "INVALID_GPX"),
        (t4, "INVALID_GPX"), (t5, "INVALID_GPX")]).blockCount = 1) ∧
    (t1 + 60000 ≤ t3 → t2 + 60000 ≤ t4 → t3 + 60000 ≤ t5 →
      (runEvents tmInit [(t1, "INVALID_GPX"), (t2, "INVALID_GPX"), (t3, "INVALID_GPX"),
        (t4, "INVALID_GPX"), (t5, "INVALID_GPX")]).blockCount = 0) := by
  have w1 : windowScore [gpxEv t1] t1 = 1 := by
    have h := windowScore_gpxEvs [t1] t1
    simp only [List.map_cons, List.map_nil] at h
    rw [h]
    simp
  constructor
  · intro hspan
    have w2 : windowScore [gpxEv t1, gpxEv t2] t2 = 2 := by
      have h := windowScore_gpxEvs [t1, t2] t2
      simp only [List.map_cons, List.map_nil] at h
      rw [h]
      simp [show t2 - t1 < 60000 by omega]
    have w3 : windowScore [gpxEv t1, gpxEv t2, gpxEv t3] t3 = 3 := by
      have h := windowScore_gpxEvs [t1, t2, t3] t3
      simp only [List.map_cons, List.map_nil] at h
      rw [h]
      simp [show t3 - t1 < 60000 by omega, show t3 - t2 < 60000 by omega]
    have w4 : windowScore [gpxEv t1, gpxEv t2, gpxEv t3, gpxEv t4] t4 = 4 := by
      have h := windowScore_gpxEvs [t1, t2, t3, t4] t4
      simp only [List.map_cons, List.map_nil] at h
      rw [h]
      simp [show t4 - t1 < 60000 by omega, show t4 - t2 < 60000 by omega,
        show t4 - t3 < 60000 by omega]
    have w5 : windowScore [gpxEv t1, gpxEv t2, gpxEv t3, gpxEv t4, gpxEv t5] t5 = 5 := by
      have h := windowScore_gpxEvs [t1, t2, t3, t4, t5] t5
      simp only [List.map_cons, List.map_nil] at h
      rw [h]
      simp [show t5 - t1 < 60000 by omega, show t5 - t2 < 60000 by omega,
        show t5 - t3 < 60000 by omega, show t5 - t4 < 60000 by omega]
    have e1 : (recordEvent tmInit t1 "INVALID_GPX" []).1 = ⟨[gpxEv t1], false, 0⟩ := by
      have h := step_gpx [] false 0 t1 1 (by simp) (by simpa using w1)
      simpa [tmInit] using h
    have e2 : (recordEvent ⟨[gpxEv t1], false, 0⟩ t2 "INVALID_GPX" []).1 =
        ⟨[gpxEv t1, gpxEv t2], false, 0⟩ := by
      have h := step_gpx [gpxEv t1] false 0 t2 2 (by simp) (by simpa using w2)
      simpa using h
    have e3 : (recordEvent ⟨[gpxEv t1, gpxEv t2], false, 0⟩ t3 "INVALID_GPX" []).1 =
        ⟨[gpxEv t1, gpxEv t2, gpxEv t3], true, 0⟩ := by
      have h := step_gpx [gpxEv t1, gpxEv t2] false 0 t3 3 (by simp) (by simpa using w3)
      simpa using h
    have e4 : (recordEvent ⟨[gpxEv t1, gpxEv t2, gpxEv t3], true, 0⟩ t4
        "INVALID_GPX" []).1 =
        ⟨[gpxEv t1, gpxEv t2, gpxEv t3, gpxEv t4], true, 0⟩ := by
      have h := step_gpx [gpxEv t1, gpxEv t2, gpxEv t3] true 0 t4 4 (by simp)
        (by simpa using w4)
      simpa using h
    have e5 : (recordEvent ⟨[gpxEv t1, gpxEv t2, gpxEv t3, gpxEv t4], true, 0⟩ t5
        "INVALID_GPX" []).1 =
        ⟨[gpxEv t1, gpxEv t2, gpxEv t3, gpxEv t4, gpxEv t5], true, 1⟩ := by
      have h := step_gpx [gpxEv t1, gpxEv t2, gpxEv t3, gpxEv t4] true 0 t5 5 (by simp)
        (by simpa using w5)
      simpa using h
    simp only [runEvents, List.foldl]
    rw [e1, e2, e3, e4, e5]
  · intro hb13 hb24 hb35
    have s2 : windowScore [gpxEv t1, gpxEv t2] t2 < 3 := by
      have h := windowScore_gpxEvs [t1, t2] t2
      simp only [List.map_cons, List.map_nil] at h
      rw [h]
      have hle := List.length_filter_le (fun t => decide (t2 - t < 60000)) [t1, t2]
      simp at hle
      omega
    have s3 : windowScore [gpxEv t1, gpxEv t2, gpxEv t3] t3 < 3 := by
      have h := windowScore_gpxEvs [t1, t2, t3] t3
      simp only [List.map_cons, List.map_nil] at h
      rw [h, List.filter_cons, if_neg (by simp; omega)]
      have hle := List.length_filter_le (fun t => decide (t3 - t < 60000)) [t2, t3]
      simp at hle
      omega
    have s4 : windowScore [gpxEv t1, gpxEv t2, gpxEv t3, gpxEv t4] t4 < 3 := by
      have h := windowScore_gpxEvs [t1, t2, t3, t4] t4
      simp only [List.map_cons, List.map_nil] at h
      rw [h, List.filter_cons, if_neg (by simp; omega),
        List.filter_cons, if_neg (by simp; omega)]
      have hle := List.length_filter_le (fun t => decide (t4 - t < 60000)) [t3, t4]
      simp at hle
      omega
    have s5 : windowScore [gpxEv t1, gpxEv t2, gpxEv t3, gpxEv t4, gpxEv t5] t5 < 3 := by
      have h := windowScore_gpxEvs [t1, t2, t3, t4, t5] t5
      simp only [List.map_cons, List.map_nil] at h
      rw [h, List.filter_cons, if_neg (by simp; omega),
        List.filter_cons, if_neg (by simp; omega),
        List.filter_cons, if_neg (by simp; omega)]
      have hle := List.length_filter_le (fun t => decide (t5 - t < 60000)) [t4, t5]
      simp at hle
      omega
    have e1 : (recordEvent tmInit t1 "INVALID_GPX" []).1 = ⟨[gpxEv t1], false, 0⟩ := by
      have h := step_gpx_lt3 [] false 0 t1 (by simp) (by simpa using w1.le.trans_lt (by omega))
      simpa [tmInit] using h
    have e2 : (recordEvent ⟨[gpxEv t1], false, 0⟩ t2 "INVALID_GPX" []).1 =
        ⟨[gpxEv t1, gpxEv t2], false, 0⟩ := by
      have h := step_gpx_lt3 [gpxEv t1] false 0 t2 (by simp) (by simpa using s2)
      simpa using h
    have e3 : (recordEvent ⟨[gpxEv t1, gpxEv t2], false, 0⟩ t3 "INVALID_GPX" []).1 =
        ⟨[gpxEv t1, gpxEv t2, gpxEv t3], false, 0⟩ := by
      have h := step_gpx_lt3 [gpxEv t1, gpxEv t2] false 0 t3 (by simp) (by simpa using s3)
      simpa using h
    have e4 : (recordEvent ⟨[gpxEv t1, gpxEv t2, gpxEv t3], false, 0⟩ t4
        "INVALID_GPX" []).1 =
        ⟨[gpxEv t1, gpxEv t2, gpxEv t3, gpxEv t4], false, 0⟩ := by
      have h := step_gpx_lt3 [gpxEv t1, gpxEv t2, gpxEv t3] false 0 t4 (by simp)
        (by simpa using s4)
      simpa using h
    have e5 : (recordEvent ⟨[gpxEv t1, gpxEv t2, gpxEv t3, gpxEv t4], false, 0⟩ t5
        "INVALID_GPX" []).1 =
        ⟨[gpxEv t1, gpxEv t2, gpxEv t3, gpxEv t4, gpxEv t5], false, 0⟩ := by
      have h := step_gpx_lt3 [gpxEv t1, gpxEv t2, gpxEv t3, gpxEv t4] false 0 t5 (by simp)
        (by simpa using s5)
      simpa using h
    simp only [runEvents, List.foldl]
    rw [e1, e2, e3, e4, e5]

/-- C6 witness: timestamps 0..4 milliseconds for the in-window burst,
and an even 30-second spacing across 2 minutes for the spread case. -/
theorem c6_block_window_witness :
    (runEvents tmInit [(0, "INVALID_GPX"), (1, "INVALID_GPX"), (2, "INVALID_GPX"),
      (3, "INVALID_GPX"), (4, "INVALID_GPX")]).blockCount = 1 ∧
    (runEvents tmInit [(0, "INVALID_GPX"), (30000, "INVALID_GPX"), (60000, "INVALID_GPX"),
      (90000, "INVALID_GPX"), (120000, "INVALID_GPX")]).blockCount = 0 :=
  ⟨(c6_block_window 0 1 2 3 4 (by decide) (by decide) (by decide) (by decide)).1
      (by decide),
   (c6_block_window 0 30000 60000 90000 120000 (by decide) (by decide) (by decide)
      (by decide)).2 (by decide) (by decide) (by decide)⟩

/-! ## GPXParser file validation (`part_001`)

`GPXParser.parse` validates the file name and size before constructing
the `FileReader`; the boolean in the result records whether the read
step is reached. -/

structure JsFile where
  name : String
  size : Nat
deriving DecidableEq, Repr

/-- The model of `String.prototype.endsWith`. -/
def jsEndsWith (s suff : String) : Bool :=
  suff.data.isSuffixOf s.data

def gpxSizeCap : Nat := 5 * 1024 * 1024

/-- The validation phase of `GPXParser.parse`: extension first, then
size; the read (`reader.readAsText`) is reached only when both checks
pass. -/
def gpxParseStep (f : JsFile) : Except String Unit × Bool :=
  if !jsEndsWith (jsToLower f.name) ".gpx" then (.error "INVALID_FILE_EXTENSION", false)
  else if gpxSizeCap < f.size then (.error "FILE_TOO_LARGE", false)
  else (.ok (), true)

/-- C7 counterexample: an oversized file with a non-`.gpx` name is
rejected with `INVALID_FILE_EXTENSION`, not with `FILE_TOO_LARGE` as the
claim requires for every file over the cap. -/
theorem c7_oversized_txt_gets_extension_error :
    gpxParseStep ⟨"route.txt", 5 * 1024 * 1024 + 1⟩ =
      (.error "INVALID_FILE_EXTENSION", false) ∧
    ("INVALID_FILE_EXTENSION" : String) ≠ "FILE_TOO_LARGE" := by
  exact ⟨rfl, by decide⟩

/-- C7 amended: a file whose lowercased name does not end in `.gpx` is
rejected with `INVALID_FILE_EXTENSION` before any read attempt; a file
with a `.gpx` name whose size exceeds the 5MB cap is rejected with
`FILE_TOO_LARGE` before any read attempt (the extension check takes
precedence). -/
theorem c7_validation_rejects_before_read (f : JsFile) :
    (jsEndsWith (jsToLower f.name) ".gpx" = false →
      gpxParseStep f = (.error "INVALID_FILE_EXTENSION", false)) ∧
    (jsEndsWith (jsToLower f.name) ".gpx" = true → gpxSizeCap < f.size →
      gpxParseStep f = (.error "FILE_TOO_LARGE", false)) := by
  constructor
  · intro h
    rw [gpxParseStep, if_pos (by rw [h]; rfl)]
  · intro h hs
    rw [gpxParseStep, if_neg (by rw [h]; simp), if_pos hs]

/-- C7 amended witness: both rejection branches at concrete files. -/
theorem c7_validation_rejects_before_read_witness :
    gpxParseStep ⟨"route.txt", 10⟩ = (.error "INVALID_FILE_EXTENSION", false) ∧
    gpxParseStep ⟨"trail.gpx", 5 * 1024 * 1024 + 1⟩ = (.error "FILE_TOO_LARGE", false) :=
  ⟨(c7_validation_rejects_before_read ⟨"route.txt", 10⟩).1 (by decide),
   (c7_validation_rejects_before_read ⟨"trail.gpx", 5 * 1024 * 1024 + 1⟩).2
     (by decide) (by decide)⟩

end TrailSync
